import Mathlib

/-!
# Verification of the collage layout engine (`collage_creator.py`)

Shallow embedding of the layout and compositing engine of the collage
generator: the free-region scanner, the grid layout planner, the image
fitter (rotation + uniform scaling), the compositor offsets, the output
namer, and the batch orchestrator.  Python integer division (`//`) is
floor division, embedded as `Int.fdiv` (or `Nat` division on
nonnegative operands); Python `int()` truncates toward zero, embedded
as `pyInt`; Python float arithmetic in the scale computation is
embedded as exact rational arithmetic.
-/

namespace Collage

/-- Horizontal alignment mode (`--align`, one of left/center/right). -/
inductive Align
  | left
  | center
  | right
deriving DecidableEq

/-- Error taxonomy of spec §7.  The source surfaces `invalidGeometry`
as a `ZeroDivisionError` (zero images, hence zero columns) or as the
imaging library's `ValueError` on a non-positive resize target. -/
inductive ErrorKind
  | invalidGeometry
  | imageDecodeFailure
  | fontUnavailable
deriving DecidableEq

/-- Python `int()` applied to a rational: truncation toward zero. -/
def pyInt (q : ℚ) : Int :=
  if q < 0 then ⌈q⌉ else ⌊q⌋

/-- `find_empty_spot(width, height, padding, img_width, img_height)`
(lines 9–21): tile the page into `(img_width+padding) ×
(img_height+padding)` cells, scan rows top-to-bottom and columns
left-to-right, and return the offset of the first cell whose footprint
(with its padding margin) fits inside the page. -/
def find_empty_spot (width height padding img_width img_height : Nat) :
    Option (Nat × Nat) :=
  let num_cols := (width + padding) / (img_width + padding)
  let num_rows := (height + padding) / (img_height + padding)
  (List.range num_rows).findSome? fun row_idx =>
    (List.range num_cols).findSome? fun col_idx =>
      let x_offset := col_idx * (img_width + padding) + padding
      let y_offset := row_idx * (img_height + padding) + padding
      if x_offset + img_width + padding ≤ width ∧
          y_offset + img_height + padding ≤ height then
        some (x_offset, y_offset)
      else none

/-- Grid geometry produced by `create_collage` (lines 47–51). -/
structure Geometry where
  cols : Nat
  rows : Nat
  cellW : Int
  cellH : Int
deriving DecidableEq

/-- The grid computation at the head of `create_collage` (lines
47–51): `num_cols = int(num_imgs ** 0.5)` (floor square root),
`num_rows = -(-num_imgs // num_cols)` (ceiling division, raising
`ZeroDivisionError` when `num_cols = 0`, i.e. zero images), and the
cell sizes by floor division.  The division by zero is the
`invalidGeometry` failure of spec §7. -/
def create_collage_geometry (n : Nat) (width height pad : Int) :
    Except ErrorKind Geometry :=
  let cols := Nat.sqrt n
  if cols = 0 then
    .error .invalidGeometry
  else
    let rows := (n + cols - 1) / cols
    .ok ⟨cols, rows,
      (width - pad * (cols + 1)).fdiv cols,
      (height - pad * (rows + 1)).fdiv rows⟩

/-- Rotation test (line 61): `img.size[0] > img.size[1] and width <
height or img.size[0] < img.size[1] and width > height`. -/
def rotate_test (imgW imgH width height : Nat) : Bool :=
  (imgW > imgH && width < height) || (imgW < imgH && width > height)

/-- Image dimensions after the orientation step (lines 61–62):
`rotate(90, expand=True)` swaps width and height. -/
def oriented (imgW imgH width height : Nat) : Nat × Nat :=
  if rotate_test imgW imgH width height then (imgH, imgW) else (imgW, imgH)

/-- The uniform scale factor (line 64): `min(img_width / img.size[0],
img_height / img.size[1])`, over exact rationals. -/
def fit_scale (cellW cellH : Int) (w h : Nat) : ℚ :=
  min ((cellW : ℚ) / (w : ℚ)) ((cellH : ℚ) / (h : ℚ))

/-- The resize target (line 66): `(int(img.size[0] * scale),
int(img.size[1] * scale))`. -/
def resized (cellW cellH : Int) (w h : Nat) : Int × Int :=
  (pyInt ((w : ℚ) * fit_scale cellW cellH w h),
   pyInt ((h : ℚ) * fit_scale cellW cellH w h))

/-- Fitted image size: orientation step then uniform scaling
(lines 61–66). -/
def fit_image (imgW imgH width height : Nat) (cellW cellH : Int) :
    Int × Int :=
  let wh := oriented imgW imgH width height
  resized cellW cellH wh.1 wh.2

/-- The resize call checked as the imaging library checks it:
`Image.resize` rejects a non-positive target width or height with a
`ValueError` — spec §7 files this under `invalidGeometry`. -/
def resize_checked (cellW cellH : Int) (w h : Nat) :
    Except ErrorKind (Int × Int) :=
  let r := resized cellW cellH w h
  if r.1 ≤ 0 ∨ r.2 ≤ 0 then .error .invalidGeometry else .ok r

/-- The failure behaviour of one `create_collage` call (lines 46–66),
given the list of source image dimensions: compute the grid (division
by zero when the page has zero images), then orient and resize each
image in order.  The PNG save (line 122) happens only after every step
succeeded, so an `.error` result means no output file is written. -/
def create_collage_check (imgs : List (Nat × Nat)) (width height : Nat)
    (pad : Int) : Except ErrorKind (List (Int × Int)) := do
  let geo ← create_collage_geometry imgs.length width height pad
  imgs.mapM fun wh =>
    let o := oriented wh.1 wh.2 width height
    resize_checked geo.cellW geo.cellH o.1 o.2

/-- Whether the `create_collage` call reaches the save (line 122):
only when no step failed. -/
def create_collage_saves (imgs : List (Nat × Nat)) (width height : Nat)
    (pad : Int) : Bool :=
  (create_collage_check imgs width height pad).isOk

/-- Horizontal offset of an image (lines 72–77), computed from the
column index, the cell width, the padding and the width `img.size[0]`
of the image at that point of the loop — after resizing, before the
border augmentation. -/
def x_offset (align : Align) (col : Nat) (cellW pad imgW : Int) : Int :=
  match align with
  | .left => (col : Int) * (cellW + pad) + pad
  | .right => ((col : Int) + 1) * (cellW + pad) - imgW
  | .center => (col : Int) * (cellW + pad) + (cellW - imgW).fdiv 2 + pad

/-- Vertical offset of an image (line 79), always centered in the
row; `img.size[1]` is again the pre-border size. -/
def y_offset (row : Nat) (cellH pad imgH : Int) : Int :=
  (row : Int) * (cellH + pad) + (cellH - imgH).fdiv 2 + pad

/-- One image placed on the canvas: its paste offset and the size of
the buffer actually pasted there. -/
structure Placed where
  x : Int
  y : Int
  w : Int
  h : Int
deriving DecidableEq

/-- Placement of the image with zero-based index `i` (lines 59 and
72–84): `row, col = divmod(i, num_cols)`, offsets from the resized
(pre-border) size `(w, h)`, then the optional border augmentation
growing the pasted buffer by `border_thickness` on every side.  The
offsets are computed before the border is added. -/
def composite (align : Align) (border : Bool) (thickness : Int)
    (i cols : Nat) (cellW cellH pad w h : Int) : Placed :=
  let row := i / cols
  let col := i % cols
  let x := x_offset align col cellW pad w
  let y := y_offset row cellH pad h
  if border then
    ⟨x, y, w + 2 * thickness, h + 2 * thickness⟩
  else
    ⟨x, y, w, h⟩

/-- An output file name as the namer builds it (lines 116–120):
either the plain `"<pfx>-<date>-<id>.png"` or the same with a numeric
suffix `-<i>`. -/
inductive CName
  | plain (pfx date : String) (id : Nat)
  | suffixed (pfx date : String) (id : Nat) (i : Nat)
deriving DecidableEq

/-- Rendering of a structured name to the actual file-name string. -/
def CName.render : CName → String
  | .plain p d id => p ++ "-" ++ d ++ "-" ++ toString id ++ ".png"
  | .suffixed p d id i =>
      p ++ "-" ++ d ++ "-" ++ toString id ++ "-" ++ toString i ++ ".png"

/-- The `while os.path.exists` loop (lines 117–120), with the
filesystem embedded as the finite list of existing names: try the
suffixes `i, i+1, …` and return the first name not present.  `fuel`
bounds the number of iterations; `choose_name` supplies fuel
`existing.length + 1`, which is proved sufficient below. -/
def name_loop (existing : List CName) (p d : String) (id : Nat) :
    Nat → Nat → CName
  | i, 0 => .suffixed p d id i
  | i, fuel + 1 =>
    if CName.suffixed p d id i ∈ existing then
      name_loop existing p d id (i + 1) fuel
    else
      .suffixed p d id i

/-- The output namer (lines 116–120): the plain name when it is
unused, otherwise the first unused suffixed name `-1`, `-2`, …. -/
def choose_name (existing : List CName) (p d : String) (id : Nat) :
    CName :=
  if CName.plain p d id ∈ existing then
    name_loop existing p d id 1 (existing.length + 1)
  else
    .plain p d id

/-- Recursion worker for the chunking of `main`: structural recursion
on a fuel bound for the number of chunks, so that the definition
computes in the kernel.  `collage_groups` supplies fuel `l.length`,
which suffices because every step with `k ≥ 1` consumes at least one
element. -/
def chunk_go (k : Nat) : Nat → List α → List (List α)
  | _, [] => []
  | 0, _ :: _ => []
  | fuel + 1, x :: xs => (x :: xs).take k :: chunk_go k fuel ((x :: xs).drop k)

/-- The chunking of `main` (line 187): `[images[i:i + k] for i in
range(0, total, k)]`.  Python raises a `ValueError` for step `k = 0`;
the model returns `[]` there and every theorem assumes `k ≥ 1`. -/
def collage_groups (l : List α) (k : Nat) : List (List α) :=
  if k = 0 then [] else chunk_go k l.length l

/-- The per-page builds issued by `main` (lines 192–194): each chunk
paired with its one-based page id `idx + 1`. -/
def collage_pages (l : List α) (k : Nat) : List (Nat × List α) :=
  (collage_groups l k).enum.map fun p => (p.1 + 1, p.2)

/-- A file of the source directory as the caption logic sees it:
its name, its filesystem modification time, and the optional EXIF
`DateTimeOriginal` timestamp.  Timestamps are abstracted as naturals. -/
structure FsFile where
  name : String
  mtime : Nat
  exifDate : Option Nat
deriving DecidableEq

/-- `extract_creation_date` (lines 36–44): the EXIF
`DateTimeOriginal` when present, else the file modification time. -/
def extract_creation_date (f : FsFile) : Nat :=
  f.exifDate.getD f.mtime

/-- The creation dates computed by `load_images` (lines 23–34), one
per listed file, in listing order. -/
def loaded_dates (dir : List FsFile) : List Nat :=
  dir.map extract_creation_date

/-- The date stamped on the canvas for the image at page-local index
`i` (line 94): the modification time of the `i`-th entry of a fresh
listing of the fixed `images` directory — not the creation date
computed at load time, and `i` restarts at 0 on every page. -/
def stamped_date (images_dir : List FsFile) (i : Nat) : Option Nat :=
  (images_dir.get? i).map (·.mtime)

/-- One text-draw operation on the canvas: position, RGBA fill, and
the drawn timestamp (standing for its formatted string). -/
structure TextDraw where
  pos : Int × Int
  fill : Nat × Nat × Nat × Nat
  date : Nat
deriving DecidableEq

/-- The two caption draw calls (lines 95–97): black at a one-pixel
diagonal offset beneath, white on top, both at opacity
`int(255 * text_opacity)`, anchored at the paste offset plus the
border thickness. -/
def caption_draws (x y thickness : Int) (opacity : ℚ) (d : Nat) :
    List TextDraw :=
  let op := (pyInt (255 * opacity)).toNat
  [⟨(x + thickness + 1, y + thickness + 1), (0, 0, 0, op), d⟩,
   ⟨(x + thickness, y + thickness), (255, 255, 255, op), d⟩]

/-! ## Grid layout planner (C1) -/

/-- C1: for every image count `n ≥ 1`, page size and padding, the
grid computed by `create_collage` succeeds with
`cols = ⌊√n⌋`, `rows = ⌈n / cols⌉` (equivalently
`rows·cols ≥ n > (rows−1)·cols`), `cellW = (W − p·(cols+1)) ⌊/⌋ cols`
and `cellH = (H − p·(rows+1)) ⌊/⌋ rows` with floor division. -/
theorem C1_grid_layout (n : Nat) (width height pad : Int) (hn : 1 ≤ n) :
    create_collage_geometry n width height pad =
      .ok ⟨Nat.sqrt n, (n + Nat.sqrt n - 1) / Nat.sqrt n,
        (width - pad * (Nat.sqrt n + 1)).fdiv (Nat.sqrt n),
        (height - pad * ((((n + Nat.sqrt n - 1) / Nat.sqrt n : Nat) : Int) + 1)).fdiv
          (((n + Nat.sqrt n - 1) / Nat.sqrt n : Nat) : Int)⟩ ∧
    n ≤ ((n + Nat.sqrt n - 1) / Nat.sqrt n) * Nat.sqrt n ∧
    ((n + Nat.sqrt n - 1) / Nat.sqrt n - 1) * Nat.sqrt n < n := by
  have hc : 0 < Nat.sqrt n := Nat.sqrt_pos.mpr hn
  have hc' : Nat.sqrt n ≠ 0 := Nat.pos_iff_ne_zero.mp hc
  refine ⟨by simp [create_collage_geometry, hc'], ?_, ?_⟩
  · have hdm := Nat.div_add_mod (n + Nat.sqrt n - 1) (Nat.sqrt n)
    have hmlt := Nat.mod_lt (n + Nat.sqrt n - 1) hc
    rw [Nat.mul_comm]
    omega
  · have hdm := Nat.div_add_mod (n + Nat.sqrt n - 1) (Nat.sqrt n)
    have hmlt := Nat.mod_lt (n + Nat.sqrt n - 1) hc
    rw [Nat.sub_mul, one_mul, Nat.mul_comm]
    omega

/-- Witness for C1 at `n = 5`, the default page 5100×6600 and
padding 6: `cols = 2`, `rows = 3`, `cellW = 2541`, `cellH = 2192`. -/
theorem C1_grid_layout_witness :
    1 ≤ 5 ∧
    (create_collage_geometry 5 5100 6600 6 =
        .ok ⟨Nat.sqrt 5, (5 + Nat.sqrt 5 - 1) / Nat.sqrt 5,
          ((5100 : Int) - 6 * (Nat.sqrt 5 + 1)).fdiv (Nat.sqrt 5),
          ((6600 : Int) - 6 * ((((5 + Nat.sqrt 5 - 1) / Nat.sqrt 5 : Nat) : Int) + 1)).fdiv
            (((5 + Nat.sqrt 5 - 1) / Nat.sqrt 5 : Nat) : Int)⟩ ∧
      5 ≤ ((5 + Nat.sqrt 5 - 1) / Nat.sqrt 5) * Nat.sqrt 5 ∧
      ((5 + Nat.sqrt 5 - 1) / Nat.sqrt 5 - 1) * Nat.sqrt 5 < 5) :=
  ⟨by decide, C1_grid_layout 5 5100 6600 6 (by decide)⟩

/-! ## Image fitter rotation (C4) -/

/-- C4 counterexample: a square 10×10 image on a landscape 20×10 page
— `(imgW > imgH)` and `(pageW > pageH)` differ, yet the code does not
rotate, because its condition requires a strict inequality on both the
image and the page. -/
theorem C4_rotation_counterexample :
    rotate_test 10 10 20 10 = false ∧ ¬((10 > 10) ↔ (20 > 10)) := by
  decide

/-- C4 amended: the image is rotated 90° iff `(imgW > imgH)` and
`(pageW > pageH)` differ AND neither the image nor the page is square;
a square image or a square page is never rotated. -/
theorem C4_rotation_amended (imgW imgH pageW pageH : Nat) :
    rotate_test imgW imgH pageW pageH = true ↔
      (¬((imgW > imgH) ↔ (pageW > pageH)) ∧ imgW ≠ imgH ∧ pageW ≠ pageH) := by
  simp only [rotate_test, Bool.or_eq_true, Bool.and_eq_true,
    decide_eq_true_eq]
  omega

/-! ## Free-region scanner (C5, C10) -/

/-- Closed form of the scanner for a positive panel size: the fit
test is monotone in the row and column indices, so either the very
first tile at `(padding, padding)` fits and is returned, or no tile
fits and the result is `none`. -/
theorem find_empty_spot_eq (w h p iw ih : Nat) (hiw : 0 < iw)
    (hih : 0 < ih) :
    find_empty_spot w h p iw ih =
      if p + iw + p ≤ w ∧ p + ih + p ≤ h then some (p, p) else none := by
  by_cases hx : p + iw + p ≤ w ∧ p + ih + p ≤ h
  · rw [if_pos hx]
    obtain ⟨hxw, hxh⟩ := hx
    have hcols : 0 < (w + p) / (iw + p) :=
      (Nat.one_le_div_iff (by omega)).mpr (by omega)
    have hrows : 0 < (h + p) / (ih + p) :=
      (Nat.one_le_div_iff (by omega)).mpr (by omega)
    simp only [find_empty_spot]
    rcases hC : (w + p) / (iw + p) with _ | c
    · omega
    rcases hR : (h + p) / (ih + p) with _ | r
    · omega
    simp only [List.range_succ_eq_map, List.findSome?_cons, Nat.zero_mul,
      Nat.zero_add]
    rw [if_pos ⟨hxw, hxh⟩]
  · rw [if_neg hx]
    simp only [find_empty_spot]
    rw [List.findSome?_eq_none_iff]
    intro row hrow
    rw [List.findSome?_eq_none_iff]
    intro col hcol
    have h0 : ¬(col * (iw + p) + p + iw + p ≤ w ∧
        row * (ih + p) + p + ih + p ≤ h) := by
      rintro ⟨g1, g2⟩
      exact hx ⟨by omega, by omega⟩
    exact if_neg h0

/-- C5 counterexample: a 100×100 panel on a 100×100 page with padding
6 does not exceed the page dimensions, yet the scanner returns `none`
(the padded footprint 112 does not fit). -/
theorem C5_scanner_counterexample :
    find_empty_spot 100 100 6 100 100 = none ∧ 100 ≤ 100 ∧ 100 ≤ 100 := by
  decide

/-- C5 amended: the scanner returns `none` whenever the panel exceeds
the page; whenever it returns a position, that position's offset plus
panel size plus padding stays within the page bounds; and a position
is returned precisely when the first tile at `(padding, padding)`
fits with its margin, which can fail even for a panel no larger than
the page. -/
theorem C5_scanner_amended (w h p iw ih : Nat) (hiw : 0 < iw)
    (hih : 0 < ih) :
    (w < iw ∨ h < ih → find_empty_spot w h p iw ih = none) ∧
    (∀ x y, find_empty_spot w h p iw ih = some (x, y) →
      x + iw + p ≤ w ∧ y + ih + p ≤ h) ∧
    (p + iw + p ≤ w ∧ p + ih + p ≤ h →
      find_empty_spot w h p iw ih = some (p, p)) := by
  rw [find_empty_spot_eq w h p iw ih hiw hih]
  refine ⟨?_, ?_, ?_⟩
  · intro hlt
    rw [if_neg]
    rintro ⟨g1, g2⟩
    omega
  · intro x y hxy
    by_cases hfit : p + iw + p ≤ w ∧ p + ih + p ≤ h
    · rw [if_pos hfit] at hxy
      cases hxy
      exact ⟨hfit.1, hfit.2⟩
    · rw [if_neg hfit] at hxy
      cases hxy
  · intro hfit
    exact if_pos hfit

/-- Witness for C5 (amended) at page 200×200, padding 6, panel
50×50. -/
theorem C5_scanner_amended_witness :
    0 < 50 ∧
    ((200 < 50 ∨ 200 < 50 → find_empty_spot 200 200 6 50 50 = none) ∧
      (∀ x y, find_empty_spot 200 200 6 50 50 = some (x, y) →
        x + 50 + 6 ≤ 200 ∧ y + 50 + 6 ≤ 200) ∧
      (6 + 50 + 6 ≤ 200 ∧ 6 + 50 + 6 ≤ 200 →
        find_empty_spot 200 200 6 50 50 = some (6, 6))) :=
  ⟨by decide, C5_scanner_amended 200 200 6 50 50 (by decide) (by decide)⟩

/-- C10: for every page size, padding and positive panel size, the
scanner returns either `none` or exactly the top-left position
`(padding, padding)` — the fit test ignores occupied photo cells and
is hardest away from the origin, so any returned spot is the page's
top-left corner. -/
theorem C10_scanner_top_left (w h p iw ih : Nat) (hiw : 0 < iw)
    (hih : 0 < ih) :
    find_empty_spot w h p iw ih = none ∨
      find_empty_spot w h p iw ih = some (p, p) := by
  rw [find_empty_spot_eq w h p iw ih hiw hih]
  by_cases hfit : p + iw + p ≤ w ∧ p + ih + p ≤ h
  · right
    exact if_pos hfit
  · left
    exact if_neg hfit

/-- Witness for C10 at page 5100×6600, padding 6, panel 500×300: the
returned spot is `(6, 6)`. -/
theorem C10_scanner_top_left_witness :
    0 < 500 ∧
    (find_empty_spot 5100 6600 6 500 300 = none ∨
      find_empty_spot 5100 6600 6 500 300 = some (6, 6)) :=
  ⟨by decide, C10_scanner_top_left 5100 6600 6 500 300 (by decide)
    (by decide)⟩

/-! ## Invalid geometry (C2) -/

/-- Truncation toward zero of a nonpositive rational is nonpositive. -/
theorem pyInt_nonpos {q : ℚ} (hq : q ≤ 0) : pyInt q ≤ 0 := by
  unfold pyInt
  split
  · exact Int.ceil_le.mpr (by exact_mod_cast hq)
  · calc ⌊q⌋ ≤ ⌊(0 : ℚ)⌋ := Int.floor_le_floor hq
      _ = 0 := Int.floor_zero

/-- C2: building a page fails with `invalidGeometry` when the image
count is zero (zero columns, so the row computation divides by zero)
— and then no output file is written — and likewise when the computed
cell width or cell height is ≤ 0, since the first image's resize
target is then non-positive and the resize is rejected. -/
theorem C2_invalid_geometry (imgs : List (Nat × Nat)) (width height : Nat)
    (pad : Int) (hpos : ∀ wh ∈ imgs, 0 < wh.1 ∧ 0 < wh.2) :
    (imgs = [] →
      create_collage_check imgs width height pad =
          .error .invalidGeometry ∧
        create_collage_saves imgs width height pad = false) ∧
    (∀ g, create_collage_geometry imgs.length width height pad = .ok g →
      imgs ≠ [] → (g.cellW ≤ 0 ∨ g.cellH ≤ 0) →
      create_collage_check imgs width height pad =
        .error .invalidGeometry) := by
  constructor
  · rintro rfl
    constructor
    · simp [create_collage_check, create_collage_geometry, Bind.bind,
        Except.bind]
    · simp [create_collage_saves, create_collage_check,
        create_collage_geometry, Bind.bind, Except.bind, Except.isOk,
        Except.toBool]
  · intro g hgeo hne hcell
    obtain ⟨wh0, rest, rfl⟩ : ∃ a l, imgs = a :: l := by
      cases imgs with
      | nil => exact absurd rfl hne
      | cons a l => exact ⟨a, l, rfl⟩
    have hw0 := hpos wh0 (List.mem_cons_self _ _)
    have hopos : 0 < (oriented wh0.1 wh0.2 width height).1 ∧
        0 < (oriented wh0.1 wh0.2 width height).2 := by
      unfold oriented
      split
      · exact ⟨hw0.2, hw0.1⟩
      · exact hw0
    have hscale :
        fit_scale g.cellW g.cellH (oriented wh0.1 wh0.2 width height).1
          (oriented wh0.1 wh0.2 width height).2 ≤ 0 := by
      rcases hcell with hc | hc
      · refine le_trans (min_le_left _ _) ?_
        apply div_nonpos_of_nonpos_of_nonneg
        · exact_mod_cast hc
        · positivity
      · refine le_trans (min_le_right _ _) ?_
        apply div_nonpos_of_nonpos_of_nonneg
        · exact_mod_cast hc
        · positivity
    have h1 : ((oriented wh0.1 wh0.2 width height).1 : ℚ) *
        fit_scale g.cellW g.cellH (oriented wh0.1 wh0.2 width height).1
          (oriented wh0.1 wh0.2 width height).2 ≤ 0 :=
      mul_nonpos_iff.mpr (Or.inl ⟨by positivity, hscale⟩)
    have hres :
        (resized g.cellW g.cellH (oriented wh0.1 wh0.2 width height).1
          (oriented wh0.1 wh0.2 width height).2).1 ≤ 0 := pyInt_nonpos h1
    have hchk :
        resize_checked g.cellW g.cellH (oriented wh0.1 wh0.2 width height).1
          (oriented wh0.1 wh0.2 width height).2 = .error .invalidGeometry := by
      unfold resize_checked
      exact if_pos (Or.inl hres)
    simp only [List.length_cons] at hgeo
    simp [create_collage_check, hgeo, Bind.bind, Except.bind,
      List.mapM.loop, hchk]

/-- Witness for C2: one 100×50 image on a 10×10 page with padding 6
(cell width `(10 − 12) ⌊/⌋ 1 = −2 ≤ 0`). -/
theorem C2_invalid_geometry_witness :
    (∀ wh ∈ [((100 : Nat), (50 : Nat))], 0 < wh.1 ∧ 0 < wh.2) ∧
    (([((100 : Nat), (50 : Nat))] : List (Nat × Nat)) = [] →
      create_collage_check [(100, 50)] 10 10 6 = .error .invalidGeometry ∧
        create_collage_saves [(100, 50)] 10 10 6 = false) ∧
    (∀ g, create_collage_geometry (List.length [((100 : Nat), (50 : Nat))])
          10 10 6 = .ok g →
      ([((100 : Nat), (50 : Nat))] : List (Nat × Nat)) ≠ [] →
      (g.cellW ≤ 0 ∨ g.cellH ≤ 0) →
      create_collage_check [(100, 50)] 10 10 6 = .error .invalidGeometry) :=
  ⟨by decide, C2_invalid_geometry [(100, 50)] 10 10 6 (by decide)⟩

/-! ## Image fitter bound and aspect preservation (C3) -/

/-- Truncation toward zero of a nonnegative rational is its floor. -/
theorem pyInt_of_nonneg {q : ℚ} (hq : 0 ≤ q) : pyInt q = ⌊q⌋ := by
  unfold pyInt
  rw [if_neg (not_lt.mpr hq)]

/-- C3: for positive source dimensions and positive cell sizes, the
fitted image fits inside the cell on both axes, and its aspect ratio
equals the original's within rounding, with width and height swapped
first when the 90° rotation was applied: writing `(aW, aH)` for the
dimensions after the orientation step and `(w′, h′)` for the fitted
size, `|w′·aH − h′·aW| < aW + aH`. -/
theorem C3_fit_bounds (imgW imgH width height : Nat) (cellW cellH : Int)
    (hW : 0 < imgW) (hH : 0 < imgH) (hcW : 0 < cellW) (hcH : 0 < cellH) :
    (fit_image imgW imgH width height cellW cellH).1 ≤ cellW ∧
    (fit_image imgW imgH width height cellW cellH).2 ≤ cellH ∧
    |(fit_image imgW imgH width height cellW cellH).1 *
        ((oriented imgW imgH width height).2 : Int) -
      (fit_image imgW imgH width height cellW cellH).2 *
        ((oriented imgW imgH width height).1 : Int)| <
      ((oriented imgW imgH width height).1 : Int) +
        ((oriented imgW imgH width height).2 : Int) := by
  have hab : 0 < (oriented imgW imgH width height).1 ∧
      0 < (oriented imgW imgH width height).2 := by
    unfold oriented
    split
    · exact ⟨hH, hW⟩
    · exact ⟨hW, hH⟩
  obtain ⟨ha, hb⟩ := hab
  set a := (oriented imgW imgH width height).1 with hadef
  set b := (oriented imgW imgH width height).2 with hbdef
  have hfit : fit_image imgW imgH width height cellW cellH =
      resized cellW cellH a b := rfl
  rw [hfit]
  set s := fit_scale cellW cellH a b with hs
  have hapos : (0 : ℚ) < (a : ℚ) := by exact_mod_cast ha
  have hbpos : (0 : ℚ) < (b : ℚ) := by exact_mod_cast hb
  have hspos : 0 < s := by
    rw [hs]
    unfold fit_scale
    apply lt_min
    · apply div_pos _ hapos
      exact_mod_cast hcW
    · apply div_pos _ hbpos
      exact_mod_cast hcH
  have hsa : (a : ℚ) * s ≤ ((cellW : ℚ)) := by
    rw [hs]
    calc (a : ℚ) * fit_scale cellW cellH a b
        ≤ (a : ℚ) * ((cellW : ℚ) / (a : ℚ)) :=
          mul_le_mul_of_nonneg_left (min_le_left _ _) hapos.le
      _ = (cellW : ℚ) := by field_simp
  have hsb : (b : ℚ) * s ≤ ((cellH : ℚ)) := by
    rw [hs]
    calc (b : ℚ) * fit_scale cellW cellH a b
        ≤ (b : ℚ) * ((cellH : ℚ) / (b : ℚ)) :=
          mul_le_mul_of_nonneg_left (min_le_right _ _) hbpos.le
      _ = (cellH : ℚ) := by field_simp
  have hr1 : (resized cellW cellH a b).1 = ⌊(a : ℚ) * s⌋ := by
    show pyInt ((a : ℚ) * fit_scale cellW cellH a b) = _
    rw [← hs]
    exact pyInt_of_nonneg (mul_pos hapos hspos).le
  have hr2 : (resized cellW cellH a b).2 = ⌊(b : ℚ) * s⌋ := by
    show pyInt ((b : ℚ) * fit_scale cellW cellH a b) = _
    rw [← hs]
    exact pyInt_of_nonneg (mul_pos hbpos hspos).le
  rw [hr1, hr2]
  have hw1 : ((⌊(a : ℚ) * s⌋ : Int) : ℚ) ≤ (a : ℚ) * s := Int.floor_le _
  have hw2 : (a : ℚ) * s < (⌊(a : ℚ) * s⌋ : Int) + 1 := Int.lt_floor_add_one _
  have hh1 : ((⌊(b : ℚ) * s⌋ : Int) : ℚ) ≤ (b : ℚ) * s := Int.floor_le _
  have hh2 : (b : ℚ) * s < (⌊(b : ℚ) * s⌋ : Int) + 1 := Int.lt_floor_add_one _
  refine ⟨?_, ?_, ?_⟩
  · calc ⌊(a : ℚ) * s⌋ ≤ ⌊((cellW : Int) : ℚ)⌋ := Int.floor_le_floor hsa
      _ = cellW := Int.floor_intCast _
  · calc ⌊(b : ℚ) * s⌋ ≤ ⌊((cellH : Int) : ℚ)⌋ := Int.floor_le_floor hsb
      _ = cellH := Int.floor_intCast _
  · rw [abs_lt]
    constructor
    · qify
      nlinarith [mul_lt_mul_of_pos_right hw2 hbpos,
        mul_le_mul_of_nonneg_right hh1 hapos.le]
    · qify
      nlinarith [mul_le_mul_of_nonneg_right hw1 hbpos.le,
        mul_lt_mul_of_pos_right hh2 hapos]

/-- Witness for C3: a 400×300 image on the portrait 5100×6600 page
(rotated to 300×400) fitted into a 100×100 cell. -/
theorem C3_fit_bounds_witness :
    0 < 400 ∧
    ((fit_image 400 300 5100 6600 100 100).1 ≤ 100 ∧
      (fit_image 400 300 5100 6600 100 100).2 ≤ 100 ∧
      |(fit_image 400 300 5100 6600 100 100).1 *
          ((oriented 400 300 5100 6600).2 : Int) -
        (fit_image 400 300 5100 6600 100 100).2 *
          ((oriented 400 300 5100 6600).1 : Int)| <
        ((oriented 400 300 5100 6600).1 : Int) +
          ((oriented 400 300 5100 6600).2 : Int)) :=
  ⟨by decide, C3_fit_bounds 400 300 5100 6600 100 100 (by decide)
    (by decide) (by decide) (by decide)⟩

/-! ## Batch orchestrator (C6) -/

/-- `chunk_go` on an empty list yields no chunks at any fuel. -/
theorem chunk_go_nil (k fuel : Nat) : chunk_go (α := α) k fuel [] = [] := by
  cases fuel <;> rfl

/-- With enough fuel, the chunks concatenate back to the input. -/
theorem chunk_go_flatten (k : Nat) (hk : k ≠ 0) :
    ∀ (fuel : Nat) (l : List α), l.length ≤ fuel →
      (chunk_go k fuel l).flatten = l := by
  intro fuel
  induction fuel with
  | zero =>
    intro l hl
    have hnil : l = [] := List.eq_nil_of_length_eq_zero (Nat.le_zero.mp hl)
    subst hnil
    rfl
  | succ n ih =>
    intro l hl
    cases l with
    | nil => rfl
    | cons x xs =>
      show ((x :: xs).take k :: chunk_go k n ((x :: xs).drop k)).flatten =
        x :: xs
      rw [List.flatten_cons, ih ((x :: xs).drop k) ?_, List.take_append_drop]
      simp only [List.length_drop, List.length_cons] at hl ⊢
      omega

/-- Every chunk holds at most `k` images and is nonempty. -/
theorem chunk_go_mem (k : Nat) (hk : k ≠ 0) :
    ∀ (fuel : Nat) (l : List α), ∀ g ∈ chunk_go k fuel l,
      g.length ≤ k ∧ g ≠ [] := by
  intro fuel
  induction fuel with
  | zero =>
    intro l g hg
    cases l <;> simp [chunk_go] at hg
  | succ n ih =>
    intro l g hg
    cases l with
    | nil => simp [chunk_go] at hg
    | cons x xs =>
      rw [show chunk_go k (n + 1) (x :: xs) =
          (x :: xs).take k :: chunk_go k n ((x :: xs).drop k) from rfl] at hg
      rcases List.mem_cons.mp hg with h | h
      · subst h
        refine ⟨by simp [List.length_take], ?_⟩
        obtain ⟨m, rfl⟩ := Nat.exists_eq_succ_of_ne_zero hk
        simp
      · exact ih _ g h

/-- Every chunk except possibly the last holds exactly `k` images. -/
theorem chunk_go_dropLast (k : Nat) (hk : k ≠ 0) :
    ∀ (fuel : Nat) (l : List α), l.length ≤ fuel →
      ∀ g ∈ (chunk_go k fuel l).dropLast, g.length = k := by
  intro fuel
  induction fuel with
  | zero =>
    intro l hl g hg
    have hnil : l = [] := List.eq_nil_of_length_eq_zero (Nat.le_zero.mp hl)
    subst hnil
    simp [chunk_go_nil] at hg
  | succ n ih =>
    intro l hl g hg
    cases l with
    | nil => simp [chunk_go_nil] at hg
    | cons x xs =>
      rw [show chunk_go k (n + 1) (x :: xs) =
          (x :: xs).take k :: chunk_go k n ((x :: xs).drop k) from rfl] at hg
      by_cases hrest : (x :: xs).drop k = []
      · rw [hrest, chunk_go_nil] at hg
        simp at hg
      · have hlen : ((x :: xs).drop k).length ≤ n := by
          simp only [List.length_drop, List.length_cons] at hl ⊢
          omega
        have hne : chunk_go k n ((x :: xs).drop k) ≠ [] := by
          obtain ⟨y, ys, hd⟩ : ∃ y ys, (x :: xs).drop k = y :: ys := by
            cases hd : (x :: xs).drop k with
            | nil => exact absurd hd hrest
            | cons y ys => exact ⟨y, ys, rfl⟩
          rw [hd]
          rw [hd] at hlen
          cases n with
          | zero => simp at hlen
          | succ m => simp [chunk_go]
        rw [List.dropLast_cons_of_ne_nil hne] at hg
        rcases List.mem_cons.mp hg with h | h
        · subst h
          have hklen : k ≤ (x :: xs).length := by
            by_contra hlt
            push_neg at hlt
            exact hrest (List.drop_eq_nil_of_le (le_of_lt hlt))
          simp only [List.length_take, List.length_cons]
          simp only [List.length_cons] at hklen
          omega
        · exact ih ((x :: xs).drop k) hlen g h

/-- C6: for every input sequence and `picsPerPage = k ≥ 1`, the
chunks are contiguous, in input order (their concatenation is the
input), every chunk is nonempty with at most `k` images, every chunk
but the last has exactly `k`, pages are numbered consecutively from
1, and 31 images with `k = 30` yield exactly two pages holding 30 and
1 images. -/
theorem C6_batch_partition {α : Type} (l : List α) (k : Nat)
    (hk : 1 ≤ k) :
    (collage_groups l k).flatten = l ∧
    (∀ g ∈ collage_groups l k, g.length ≤ k ∧ g ≠ []) ∧
    (∀ g ∈ (collage_groups l k).dropLast, g.length = k) ∧
    (collage_pages l k).map Prod.fst =
      List.range' 1 (collage_groups l k).length 1 ∧
    (collage_groups (List.range 31) 30).map List.length = [30, 1] := by
  have hk' : k ≠ 0 := by omega
  have hgroups : collage_groups l k = chunk_go k l.length l := by
    unfold collage_groups
    rw [if_neg hk']
  refine ⟨?_, ?_, ?_, ?_, by decide⟩
  · rw [hgroups]
    exact chunk_go_flatten k hk' l.length l le_rfl
  · rw [hgroups]
    exact chunk_go_mem k hk' l.length l
  · rw [hgroups]
    exact chunk_go_dropLast k hk' l.length l le_rfl
  · unfold collage_pages
    rw [List.map_map, List.range'_eq_map_range,
      ← List.enum_map_fst (collage_groups l k), List.map_map]
    apply List.map_congr_left
    intro p hp
    simp [Nat.add_comm]

/-- Witness for C6 at the spec's scenario B: 31 images and
`picsPerPage = 30`. -/
theorem C6_batch_partition_witness :
    1 ≤ 30 ∧
    ((collage_groups (List.range 31) 30).flatten = List.range 31 ∧
      (∀ g ∈ collage_groups (List.range 31) 30, g.length ≤ 30 ∧ g ≠ []) ∧
      (∀ g ∈ (collage_groups (List.range 31) 30).dropLast,
        g.length = 30) ∧
      (collage_pages (List.range 31) 30).map Prod.fst =
        List.range' 1 (collage_groups (List.range 31) 30).length 1 ∧
      (collage_groups (List.range 31) 30).map List.length = [30, 1]) :=
  ⟨by decide, C6_batch_partition (List.range 31) 30 (by decide)⟩

/-! ## Output namer (C7) -/

/-- Loop correctness: whenever some suffix in the scanned window is
unused, the loop stops at the first unused one. -/
theorem name_loop_spec (existing : List CName) (p d : String) (id : Nat) :
    ∀ (fuel i : Nat),
      (∃ j, i ≤ j ∧ j < i + fuel ∧ CName.suffixed p d id j ∉ existing) →
      ∃ m, i ≤ m ∧ name_loop existing p d id i fuel = .suffixed p d id m ∧
        CName.suffixed p d id m ∉ existing ∧
        ∀ j, i ≤ j → j < m → CName.suffixed p d id j ∈ existing := by
  intro fuel
  induction fuel with
  | zero =>
    rintro i ⟨j, hij, hj, _⟩
    omega
  | succ n ih =>
    intro i hex
    have hstep : name_loop existing p d id i (n + 1) =
        if CName.suffixed p d id i ∈ existing then
          name_loop existing p d id (i + 1) n
        else
          .suffixed p d id i := rfl
    by_cases hmem : CName.suffixed p d id i ∈ existing
    · have hex' : ∃ j, i + 1 ≤ j ∧ j < (i + 1) + n ∧
          CName.suffixed p d id j ∉ existing := by
        obtain ⟨j, h1, h2, h3⟩ := hex
        refine ⟨j, ?_, by omega, h3⟩
        rcases Nat.eq_or_lt_of_le h1 with rfl | h
        · exact absurd hmem h3
        · omega
      obtain ⟨m, hm1, hm2, hm3, hm4⟩ := ih (i + 1) hex'
      refine ⟨m, by omega, ?_, hm3, ?_⟩
      · rw [hstep, if_pos hmem]
        exact hm2
      · intro j hj1 hj2
        rcases Nat.eq_or_lt_of_le hj1 with rfl | h
        · exact hmem
        · exact hm4 j h hj2
    · refine ⟨i, le_rfl, ?_, hmem, by omega⟩
      rw [hstep, if_neg hmem]

/-- Pigeonhole: among `existing.length + 1` consecutive suffixed
names at least one is absent from `existing`, since they are pairwise
distinct. -/
theorem suffix_exists (existing : List CName) (p d : String) (id i : Nat) :
    ∃ j, i ≤ j ∧ j < i + (existing.length + 1) ∧
      CName.suffixed p d id j ∉ existing := by
  by_contra hall
  push_neg at hall
  have hsub : (List.range' i (existing.length + 1)).map
      (fun j => CName.suffixed p d id j) ⊆ existing := by
    intro x hx
    obtain ⟨j, hj, rfl⟩ := List.mem_map.mp hx
    obtain ⟨hj1, hj2⟩ := List.mem_range'_1.mp hj
    exact hall j hj1 hj2
  have hnd : ((List.range' i (existing.length + 1)).map
      (fun j => CName.suffixed p d id j)).Nodup := by
    refine List.Nodup.map ?_ (List.nodup_range' i (existing.length + 1))
    intro a b hab
    simpa using hab
  have hle := (List.Nodup.subperm hnd hsub).length_le
  simp at hle

/-- C7: the namer returns the plain
`"<pfx>-<date>-<id>.png"` when that name is unused; otherwise the
first unused suffixed name `-1`, `-2`, …; and the returned name never
equals an existing file name, so no page overwrites an existing
file. -/
theorem C7_output_namer (existing : List CName) (p d : String) (id : Nat) :
    (CName.plain p d id ∉ existing →
      choose_name existing p d id = CName.plain p d id) ∧
    choose_name existing p d id ∉ existing ∧
    (CName.plain p d id ∈ existing →
      ∃ m, 1 ≤ m ∧ choose_name existing p d id = CName.suffixed p d id m ∧
        CName.suffixed p d id m ∉ existing ∧
        ∀ j, 1 ≤ j → j < m → CName.suffixed p d id j ∈ existing) ∧
    (CName.plain p d id).render =
      p ++ "-" ++ d ++ "-" ++ toString id ++ ".png" ∧
    (∀ i, (CName.suffixed p d id i).render =
      p ++ "-" ++ d ++ "-" ++ toString id ++ "-" ++ toString i ++ ".png") := by
  have hmain : CName.plain p d id ∈ existing →
      ∃ m, 1 ≤ m ∧ choose_name existing p d id = CName.suffixed p d id m ∧
        CName.suffixed p d id m ∉ existing ∧
        ∀ j, 1 ≤ j → j < m → CName.suffixed p d id j ∈ existing := by
    intro hin
    have hex := suffix_exists existing p d id 1
    obtain ⟨m, hm1, hm2, hm3, hm4⟩ :=
      name_loop_spec existing p d id (existing.length + 1) 1 hex
    refine ⟨m, hm1, ?_, hm3, hm4⟩
    unfold choose_name
    rw [if_pos hin]
    exact hm2
  refine ⟨?_, ?_, hmain, rfl, fun i => rfl⟩
  · intro hout
    unfold choose_name
    rw [if_neg hout]
  · by_cases hin : CName.plain p d id ∈ existing
    · obtain ⟨m, _, hm2, hm3, _⟩ := hmain hin
      rw [hm2]
      exact hm3
    · have heq : choose_name existing p d id = CName.plain p d id := by
        unfold choose_name
        rw [if_neg hin]
      rw [heq]
      exact hin

/-- Witness for C7 at the spec's Output-Namer scenario: with
`collage-20240101-1.png` already existing, the namer returns the
suffixed name `collage-20240101-1-1.png`. -/
theorem C7_output_namer_witness :
    (CName.plain "collage" "20240101" 1 ∉
        [CName.plain "collage" "20240101" 1] →
      choose_name [CName.plain "collage" "20240101" 1] "collage"
        "20240101" 1 = CName.plain "collage" "20240101" 1) ∧
    choose_name [CName.plain "collage" "20240101" 1] "collage"
      "20240101" 1 ∉ [CName.plain "collage" "20240101" 1] ∧
    (CName.plain "collage" "20240101" 1 ∈
        [CName.plain "collage" "20240101" 1] →
      ∃ m, 1 ≤ m ∧
        choose_name [CName.plain "collage" "20240101" 1] "collage"
          "20240101" 1 = CName.suffixed "collage" "20240101" 1 m ∧
        CName.suffixed "collage" "20240101" 1 m ∉
          [CName.plain "collage" "20240101" 1] ∧
        ∀ j, 1 ≤ j → j < m →
          CName.suffixed "collage" "20240101" 1 j ∈
            [CName.plain "collage" "20240101" 1]) ∧
    (CName.plain "collage" "20240101" 1).render =
      "collage" ++ "-" ++ "20240101" ++ "-" ++ toString 1 ++ ".png" ∧
    (∀ i, (CName.suffixed "collage" "20240101" 1 i).render =
      "collage" ++ "-" ++ "20240101" ++ "-" ++ toString 1 ++ "-" ++
        toString i ++ ".png") :=
  C7_output_namer [CName.plain "collage" "20240101" 1] "collage"
    "20240101" 1

/-! ## Compositor placement (C8) -/

/-- C8 counterexample: with the border enabled (thickness 4, the
default) and right alignment, the fitted image of pre-border width
100 is pasted with width 108, yet the horizontal offset is
`(col+1)·(cellW+p) − 100 = 106`, not `(col+1)·(cellW+p) − 108 = 98`
as the border-inclusive reading of the formula requires. -/
theorem C8_compositor_counterexample :
    (composite Align.right true 4 0 1 200 300 6 100 50).x = 106 ∧
    (composite Align.right true 4 0 1 200 300 6 100 50).w = 108 ∧
    ((0 : Int) + 1) * (200 + 6) - 108 = 98 ∧ (106 : Int) ≠ 98 := by
  decide

/-- C8 amended: with `(row, col) = divmod(i, cols)`, the horizontal
offset is `col·(cellW+p)+p` (left), `(col+1)·(cellW+p)−w` (right) or
`col·(cellW+p)+(cellW−w)⌊/⌋2+p` (center), and the vertical offset is
`row·(cellH+p)+(cellH−h)⌊/⌋2+p` — where `(w, h)` is the fitted size
before border augmentation; the border then enlarges the pasted
buffer by `2·thickness` on each axis without shifting the offset. -/
theorem C8_compositor_amended (align : Align) (border : Bool)
    (t : Int) (i cols : Nat) (cellW cellH pad w h : Int)
    (hcols : 0 < cols) (row col : Nat) (hrow : row = i / cols)
    (hcol : col = i % cols) :
    (composite align border t i cols cellW cellH pad w h).x =
      (match align with
        | Align.left => (col : Int) * (cellW + pad) + pad
        | Align.right => ((col : Int) + 1) * (cellW + pad) - w
        | Align.center =>
            (col : Int) * (cellW + pad) + (cellW - w).fdiv 2 + pad) ∧
    (composite align border t i cols cellW cellH pad w h).y =
      (row : Int) * (cellH + pad) + (cellH - h).fdiv 2 + pad ∧
    (composite align border t i cols cellW cellH pad w h).w =
      (if border then w + 2 * t else w) ∧
    (composite align border t i cols cellW cellH pad w h).h =
      (if border then h + 2 * t else h) := by
  subst hrow hcol
  cases border <;> cases align <;> simp [composite, x_offset, y_offset]

/-- Witness for C8 (amended) at `i = 5`, `cols = 3` (so `row = 1`,
`col = 2`), center alignment without border. -/
theorem C8_compositor_amended_witness :
    0 < 3 ∧ (1 : Nat) = 5 / 3 ∧ (2 : Nat) = 5 % 3 ∧
    ((composite Align.center false 4 5 3 200 300 6 100 50).x =
      (match Align.center with
        | Align.left => ((2 : Nat) : Int) * (200 + 6) + 6
        | Align.right => (((2 : Nat) : Int) + 1) * (200 + 6) - 100
        | Align.center =>
            ((2 : Nat) : Int) * (200 + 6) + ((200 : Int) - 100).fdiv 2 +
              6) ∧
    (composite Align.center false 4 5 3 200 300 6 100 50).y =
      ((1 : Nat) : Int) * (300 + 6) + ((300 : Int) - 50).fdiv 2 + 6 ∧
    (composite Align.center false 4 5 3 200 300 6 100 50).w =
      (if false then (100 : Int) + 2 * 4 else 100) ∧
    (composite Align.center false 4 5 3 200 300 6 100 50).h =
      (if false then (50 : Int) + 2 * 4 else 50)) :=
  ⟨by decide, by decide, by decide,
    C8_compositor_amended Align.center false 4 5 3 200 300 6 100 50
      (by decide) 1 2 (by decide) (by decide)⟩

/-! ## Caption stamping (C9) -/

/-- C9: at the failing input — `picsPerPage = 1` and a directory of
two files where the second carries an EXIF creation date 200 — the
second page places file `b`, whose load-time creation date is 200,
but the caption stamped for it (page-local index 0, line 94) is the
modification time 100 of the first listing entry: the code re-derives
the date from a fresh listing of the fixed `images` directory at draw
time instead of using the creation date supplied at load time.  The
two draw calls themselves are black beneath white at a one-pixel
diagonal offset, anchored at offset plus border thickness. -/
theorem C9_caption_divergence :
    stamped_date [⟨"a", 100, none⟩, ⟨"b", 300, some 200⟩] 0 = some 100 ∧
    loaded_dates [⟨"a", 100, none⟩, ⟨"b", 300, some 200⟩] = [100, 200] ∧
    collage_groups [(⟨"a", 100, none⟩ : FsFile), ⟨"b", 300, some 200⟩]
        1 = [[⟨"a", 100, none⟩], [⟨"b", 300, some 200⟩]] ∧
    some (100 : Nat) ≠ some (200 : Nat) ∧
    caption_draws 10 20 4 1 100 =
      [⟨(15, 25), (0, 0, 0, 255), 100⟩,
        ⟨(14, 24), (255, 255, 255, 255), 100⟩] := by
  refine ⟨rfl, rfl, by decide, by decide, ?_⟩
  simp [caption_draws, pyInt]

end Collage
